import Mathlib

/-!
Verification development for the purchase/idempotency and game-statistics
aggregation core of the repository. The repository ships the contracts as
documentation (the Alembic constraint-consolidation plan, the stats details
schema document, the canonical API mapping) together with the frontend
helper module cc-webapp/frontend/utils/actions.ts. The definitions below
embed, in order:
  - the Purchase Ledger contract (spec section 4.1);
  - the Alembic upgrade snippet of the constraint-consolidation plan;
  - the Stats Aggregator derivation rules of stats_details_schema.md;
  - the functions postActionsBatch and buyProduct of actions.ts.
-/

/-! ### Purchase Ledger -/

/-- Outcome of a purchase attempt, per the ledger contract: success with the
charged amount, or the two recoverable failures. -/
inductive PurchaseOutcome where
| ok (amount : Nat)
| insufficientFunds
| productNotFound
deriving DecidableEq, Repr

/-- Row of the purchase ledger: one record per (user_id, product_id,
idempotency_key) with the stored result of the first call. -/
structure PurchaseRecord where
  user_id : Nat
  product_id : String
  idempotency_key : String
  result : PurchaseOutcome
deriving DecidableEq, Repr

/-- Ledger state: the recorded purchase rows, the committed charges
(user, product, key, amount), the per-user balances and the product
price catalogue. -/
structure LedgerState where
  records : List PurchaseRecord
  charges : List (Nat × String × String × Nat)
  balance : Nat → Nat
  price : String → Option Nat

/-- Lookup of an existing ledger record by the composite key. -/
def findRecord (s : LedgerState) (u : Nat) (p k : String) : Option PurchaseRecord :=
  s.records.find? (fun r => r.user_id == u && r.product_id == p && r.idempotency_key == k)

/-- Number of committed charges recorded against a given composite key. -/
def chargeCount (s : LedgerState) (u : Nat) (p k : String) : Nat :=
  (s.charges.filter (fun c => c.1 == u && c.2.1 == p && c.2.2.1 == k)).length

/-- Modelled from the spec: the Purchase Ledger engine is not part of the
supplied sources, only its contract (spec section 4.1). If a record with the
same (user_id, product_id, idempotency_key) exists, the stored result is
returned unchanged and no side effect is repeated; otherwise the record is
inserted and the charge applied as one unit; unknown product and
insufficient balance are the recoverable failures. -/
def purchase (u : Nat) (p k : String) (s : LedgerState) : PurchaseOutcome × LedgerState :=
  match findRecord s u p k with
  | some r => (r.result, s)
  | none =>
    match s.price p with
    | none => (PurchaseOutcome.productNotFound, s)
    | some amt =>
      if amt ≤ s.balance u then
        (PurchaseOutcome.ok amt,
          { records := ⟨u, p, k, PurchaseOutcome.ok amt⟩ :: s.records,
            charges := (u, p, k, amt) :: s.charges,
            balance := fun v => if v = u then s.balance u - amt else s.balance v,
            price := s.price })
      else (PurchaseOutcome.insufficientFunds, s)

/-- Modelled from the spec: N requests racing on one idempotency key, each
request running the atomic insert-or-read-existing unit of spec section 5;
atomicity makes every interleaving equivalent to some sequential order, so
the race is embedded as sequential iteration of the atomic purchase. -/
def purchaseMany : Nat → Nat → String → String → LedgerState → List PurchaseOutcome × LedgerState
  | 0, _, _, _, s => ([], s)
  | n + 1, u, p, k, s =>
    let step := purchase u p k s
    let rest := purchaseMany n u p k step.2
    (step.1 :: rest.1, rest.2)

/-! ### Constraint model and the Alembic upgrade -/

/-- Unique constraint of a table, as reported by the SQLAlchemy inspector:
a name and the list of covered columns. -/
structure UniqueConstraint where
  name : String
  columns : List String
deriving DecidableEq, Repr

/-- Names collected for dropping by the upgrade snippet: constraints whose
column list is exactly the single column user_id or product_id. -/
def shopDropNames (uniques : List UniqueConstraint) : List String :=
  (uniques.filter (fun u => u.columns == ["user_id"] || u.columns == ["product_id"])).map
    (fun u => u.name)

/-- Constraint set of shop_transactions after the upgrade snippet ran its
drop_constraint loop: every constraint whose name was collected is gone. -/
def shopTransactionsUpgrade (uniques : List UniqueConstraint) : List UniqueConstraint :=
  uniques.filter (fun u => !(shopDropNames uniques).contains u.name)

/-- Pre-migration constraint state of shop_transactions per the plan table:
single-column UNIQUE on user_id and on product_id, plus the composite
(user_id, product_id, idempotency_key) UNIQUE. -/
def preShopUniques : List UniqueConstraint :=
  [⟨"uq_shop_tx_user", ["user_id"]⟩,
   ⟨"uq_shop_tx_product", ["product_id"]⟩,
   ⟨"uq_shop_tx_idem", ["user_id", "product_id", "idempotency_key"]⟩]

/-- Row of shop_transactions restricted to the constrained columns. -/
structure ShopRow where
  user_id : Nat
  product_id : String
  idempotency_key : String
deriving DecidableEq, Repr

/-- Value of a constrained column in a row. -/
def colVal (r : ShopRow) (c : String) : String :=
  if c = "user_id" then toString r.user_id
  else if c = "product_id" then r.product_id
  else if c = "idempotency_key" then r.idempotency_key
  else ""

/-- Admissibility of a table content under a set of unique constraints: no
two distinct rows agree on all columns of any constraint. -/
def rowsAdmissible (cs : List UniqueConstraint) (rows : List ShopRow) : Prop :=
  ∀ c ∈ cs, ∀ r1 ∈ rows, ∀ r2 ∈ rows, r1 ≠ r2 →
    ¬ (∀ col ∈ c.columns, colVal r1 col = colVal r2 col)

/-- Row of game_stats restricted to the user_id column, which the
pre-migration schema allows to be NULL. -/
structure GameStatsRow where
  user_id : Option Nat
deriving DecidableEq, Repr

/-- State of the game_stats table: rows plus the nullability of user_id as
reported by the inspector. -/
structure GameStatsTable where
  rows : List GameStatsRow
  user_id_nullable : Bool
deriving DecidableEq, Repr

/-- Embedding of the game_stats step of the upgrade snippet: when user_id is
still nullable, the snippet first executes DELETE FROM game_stats WHERE
user_id IS NULL and then alters the column to NOT NULL; there is no abort
path, the result is always a completed migration. -/
def gameStatsUpgrade (t : GameStatsTable) : Except String GameStatsTable :=
  if t.user_id_nullable then
    Except.ok { rows := t.rows.filter (fun r => r.user_id.isSome), user_id_nullable := false }
  else Except.ok t

/-! ### Stats Aggregator -/

/-- Known game types of the stats details schema. -/
inductive GameType where
| crash
| slot
| gacha
| rps
deriving DecidableEq, Repr

/-- List of all known game types, in the order of the schema document. -/
def gameTypes : List GameType := [GameType.crash, GameType.slot, GameType.gacha, GameType.rps]

/-- Per-game-type detail record of the stats schema. -/
structure Detail where
  wins : Nat
  losses : Nat
  max_win : Nat
  total : Nat
deriving DecidableEq, Repr

/-- Zero-valued detail record synthesized for a missing game type. -/
def zeroDetail : Detail := ⟨0, 0, 0, 0⟩

/-- Game-resolution event reported by a game service: which game, whether
the user won, and the payout of a win. -/
structure GameEvent where
  game : GameType
  win : Bool
  payout : Nat
deriving DecidableEq, Repr

/-- Modelled from the spec: the game-resolution update path of the stats
service is not in the supplied sources; per the data model a detail record
is updated incrementally as games resolve, counting the game in wins or
losses, in total, and raising max_win on a winning payout. -/
def applyEvent (d : GameType → Detail) (e : GameEvent) : GameType → Detail :=
  fun g =>
    if g = e.game then
      let cur := d g
      if e.win then ⟨cur.wins + 1, cur.losses, Nat.max cur.max_win e.payout, cur.total + 1⟩
      else ⟨cur.wins, cur.losses + 1, cur.max_win, cur.total + 1⟩
    else d g

/-- Detail state reached from the empty history by a sequence of
game-resolution events. -/
def applyEvents (es : List GameEvent) : GameType → Detail :=
  es.foldl applyEvent (fun _ => zeroDetail)

/-- Sum of wins across the known game types. -/
def sumWins (d : GameType → Detail) : Nat :=
  (gameTypes.map (fun g => (d g).wins)).sum

/-- Sum of losses across the known game types. -/
def sumLosses (d : GameType → Detail) : Nat :=
  (gameTypes.map (fun g => (d g).losses)).sum

/-- Sum of total games across the known game types. -/
def sumTotals (d : GameType → Detail) : Nat :=
  (gameTypes.map (fun g => (d g).total)).sum

/-- Maximum max_win across the known game types. -/
def maxWinOf (d : GameType → Detail) : Nat :=
  (gameTypes.map (fun g => (d g).max_win)).foldr Nat.max 0

/-- Rounding of a rational to three decimal places, as in the derivation
rule round(x, 3) of stats_details_schema.md. -/
def roundTo3 (q : ℚ) : ℚ := (round (1000 * q) : ℤ) / 1000

/-- Derivation rule of stats_details_schema.md:
win_rate = round(total_wins / max(1, total_games_played), 3). -/
def winRate (wins games : Nat) : ℚ :=
  roundTo3 ((wins : ℚ) / (Nat.max 1 games : ℚ))

/-- Aggregate record of the stats schema. -/
structure Aggregate where
  total_games_played : Nat
  total_wins : Nat
  total_losses : Nat
  win_rate : ℚ
  overall_max_win : Nat
deriving DecidableEq, Repr

/-- Recomputation of the aggregate from the detail records, following the
derivation rules of stats_details_schema.md section 3. -/
def recompute (d : GameType → Detail) : Aggregate :=
  { total_games_played := sumTotals d,
    total_wins := sumWins d,
    total_losses := sumLosses d,
    win_rate := winRate (sumWins d) (sumTotals d),
    overall_max_win := maxWinOf d }

/-- Lookup of a stored detail record for a game type in the per-user stored
rows of the game_stats table. -/
def lookupDetail (recs : List (GameType × Detail)) (g : GameType) : Option Detail :=
  (recs.find? (fun r => r.1 == g)).map (fun r => r.2)

/-- Modelled from the spec: the getStats detail view of the stats service is
not in the supplied sources; per stats_details_schema.md section 4, a game
type with no stored record is synthesized as the zero-valued record rather
than omitted, so the details map always covers every known game type. -/
def getStatsDetails (recs : List (GameType × Detail)) : List (GameType × Detail) :=
  gameTypes.map (fun g => (g, (lookupDetail recs g).getD zeroDetail))

/-- Stored per-user stats state seen by a read: the cached aggregate and the
authoritative detail rows. -/
structure StatsState where
  stored : Aggregate
  details : GameType → Detail

/-- Response of a stats read together with the warnings logged while
serving it. -/
structure ReadResult where
  success : Bool
  aggregate : Aggregate
  warnings : List String
deriving Repr

/-- Modelled from the spec: the read path of the stats service is not in the
supplied sources; per stats_details_schema.md section 3 every read verifies
sum(details.wins) == aggregate.total_wins, and on mismatch logs a warning
and recomputes the aggregate from the details, still answering
successfully. -/
def readStats (st : StatsState) : ReadResult :=
  if sumWins st.details = st.stored.total_wins then
    ⟨true, st.stored, []⟩
  else
    ⟨true, recompute st.details, ["aggregate drift detected: recomputing from details"]⟩

/-! ### Frontend action helpers (cc-webapp/frontend/utils/actions.ts) -/

/-- Payload of a single user action post. -/
structure ActionPayload where
  user_id : Nat
  action_type : String
deriving DecidableEq, Repr

/-- Environment of apiRequest outcomes: the result of the bulk endpoint on a
given item list and the result of the single-action endpoint per payload. -/
structure ApiEnv where
  bulk : List ActionPayload → Except String String
  single : ActionPayload → Except String String

/-- Sequential fallback loop of postActionsBatch: posts each payload in
order via postAction, stopping at the first failure. -/
def postSeq (env : ApiEnv) : List ActionPayload → Except String (List String)
  | [] => Except.ok []
  | p :: ps =>
    match env.single p with
    | Except.error e => Except.error e
    | Except.ok r =>
      match postSeq env ps with
      | Except.error e => Except.error e
      | Except.ok rs => Except.ok (r :: rs)

/-- Result of postActionsBatch: the bulk response, or the degraded
acknowledgement with the number of logged payloads. -/
inductive BatchResult where
| bulkOk (r : String)
| logged (n : Nat)
deriving DecidableEq, Repr

/-- Embedding of postActionsBatch of actions.ts: try the bulk endpoint; on
failure fall back to sequential single posts and answer with the count of
results; if the fallback also fails, rethrow the original bulk error. -/
def postActionsBatch (env : ApiEnv) (ps : List ActionPayload) : Except String BatchResult :=
  match env.bulk ps with
  | Except.ok r => Except.ok (BatchResult.bulkOk r)
  | Except.error err =>
    match postSeq env ps with
    | Except.ok rs => Except.ok (BatchResult.logged rs.length)
    | Except.error _ => Except.error err

/-- Payload accepted by buyProduct, including the optional idempotency key
of its extended parameter type. -/
structure ShopBuyPayload where
  user_id : Nat
  product_id : String
  amount : Nat
  quantity : Option Nat
  metadata : List (String × String)
  idempotency_key : Option String
deriving DecidableEq, Repr

/-- Request body sent by buyProduct to POST /api/shop/purchase. -/
structure PurchaseBody where
  product_id : String
  idempotency_key : Option String
deriving DecidableEq, Repr

/-- Embedding of the JavaScript expression payload.idempotency_key ||
undefined: a missing or empty (falsy) key becomes undefined. -/
def coerceKey : Option String → Option String
  | none => none
  | some s => if s = "" then none else some s

/-- Embedding of buyProduct of actions.ts: the body holds only product_id
and the coerced idempotency_key. -/
def buyProductBody (p : ShopBuyPayload) : PurchaseBody :=
  { product_id := p.product_id, idempotency_key := coerceKey p.idempotency_key }

/-- Keys present in the JSON serialization of the body: JSON.stringify drops
a field whose value is undefined. -/
def bodyKeys (b : PurchaseBody) : List String :=
  "product_id" ::
    (match b.idempotency_key with
     | some _ => ["idempotency_key"]
     | none => [])

/-! ### Concrete example values used by witnesses -/

/-- Example ledger state: empty ledger, every balance 100, every product
priced at 30. -/
def exLedger : LedgerState :=
  { records := [], charges := [], balance := fun _ => 100, price := fun _ => some 30 }

/-- Example buyProduct payload with an empty idempotency key. -/
def exPayload : ShopBuyPayload :=
  { user_id := 7, product_id := "gold_pack", amount := 100, quantity := some 2,
    metadata := [("source", "event")], idempotency_key := some "" }

/-- Example apiRequest environment where the bulk endpoint is down and each
single post succeeds. -/
def exApiEnv : ApiEnv :=
  { bulk := fun _ => Except.error "bulk down", single := fun _ => Except.ok "ok" }

/-- Example action payload list. -/
def exActions : List ActionPayload := [{ user_id := 1, action_type := "CLICK" }]

/-! ### Helper lemmas -/

/-- Helper: a second purchase with the same key is a no-op returning the
first result: the state reached by purchase is a fixed point. -/
lemma purchase_fixed (u : Nat) (p k : String) (s : LedgerState) :
    purchase u p k (purchase u p k s).2 = purchase u p k s := by
  unfold purchase
  cases hfind : findRecord s u p k with
  | some r => simp [hfind]
  | none =>
    cases hprice : s.price p with
    | none => simp [hfind, hprice]
    | some amt =>
      by_cases hbal : amt ≤ s.balance u
      · simp only [hfind, hprice, hbal, if_pos]
        have hfind2 : findRecord
            { records := ⟨u, p, k, PurchaseOutcome.ok amt⟩ :: s.records,
              charges := (u, p, k, amt) :: s.charges,
              balance := fun v => if v = u then s.balance u - amt else s.balance v,
              price := s.price } u p k = some ⟨u, p, k, PurchaseOutcome.ok amt⟩ := by
          unfold findRecord
          simp [List.find?]
        simp [hfind2]
      · simp [hfind, hprice, hbal]

/-- Helper: after a successful purchase on a fresh key with no prior
charges, exactly one charge is recorded against the key. -/
lemma chargeCount_purchase_ok (u : Nat) (p k : String) (s : LedgerState) (amt : Nat)
    (hfresh : findRecord s u p k = none) (hzero : chargeCount s u p k = 0)
    (hok : (purchase u p k s).1 = PurchaseOutcome.ok amt) :
    chargeCount (purchase u p k s).2 u p k = 1 := by
  cases hprice : s.price p with
  | none => simp [purchase, hfresh, hprice] at hok
  | some a =>
    by_cases hbal : a ≤ s.balance u
    · have h2 : (purchase u p k s).2 =
          { records := ⟨u, p, k, PurchaseOutcome.ok a⟩ :: s.records,
            charges := (u, p, k, a) :: s.charges,
            balance := fun v => if v = u then s.balance u - a else s.balance v,
            price := s.price } := by
        simp [purchase, hfresh, hprice, hbal]
      rw [h2]
      simp only [chargeCount] at hzero ⊢
      simp [List.filter_cons, hzero]
    · simp [purchase, hfresh, hprice, hbal] at hok

/-- Helper: when purchase leaves the state fixed, iterating it any number
of times replicates the single result and keeps the state. -/
lemma purchaseMany_of_fixed (u : Nat) (p k : String) (r : PurchaseOutcome) (t : LedgerState)
    (h : purchase u p k t = (r, t)) :
    ∀ n, purchaseMany n u p k t = (List.replicate n r, t) := by
  intro n
  induction n with
  | zero => simp [purchaseMany]
  | succ m ih => simp [purchaseMany, h, ih, List.replicate_succ]

/-- Claim C1: calling purchase a second time with the same
(user_id, product_id, idempotency_key) returns the stored result of the
first call unchanged with no second charge; on a fresh key with no prior
charges, a successful purchase records the charge exactly once, and the
second call leaves that count at one. -/
theorem purchase_idempotent_per_key (u : Nat) (p k : String) (s : LedgerState)
    (hfresh : findRecord s u p k = none) (hzero : chargeCount s u p k = 0) :
    purchase u p k (purchase u p k s).2 = purchase u p k s ∧
    (∀ amt, (purchase u p k s).1 = PurchaseOutcome.ok amt →
      chargeCount (purchase u p k (purchase u p k s).2).2 u p k = 1) := by
  refine ⟨purchase_fixed u p k s, ?_⟩
  intro amt hok
  rw [purchase_fixed u p k s]
  exact chargeCount_purchase_ok u p k s amt hfresh hzero hok

/-- Witness for C1 at a concrete fresh ledger: both calls agree and the
charge against the key is recorded exactly once. -/
theorem purchase_idempotent_per_key_witness :
    purchase 1 "gold_pack" "key1" (purchase 1 "gold_pack" "key1" exLedger).2
        = purchase 1 "gold_pack" "key1" exLedger ∧
    chargeCount (purchase 1 "gold_pack" "key1"
        (purchase 1 "gold_pack" "key1" exLedger).2).2 1 "gold_pack" "key1" = 1 := by
  have h := purchase_idempotent_per_key 1 "gold_pack" "key1" exLedger rfl rfl
  exact ⟨h.1, h.2 30 rfl⟩

/-- Claim C8: N requests racing on one idempotency key, serialized by the
atomicity of the insert-or-read-existing unit, commit exactly one charge
and all receive the identical response of the winning request. -/
theorem purchase_concurrent_once (n : Nat) (u : Nat) (p k : String) (s : LedgerState)
    (hn : 1 ≤ n) (hfresh : findRecord s u p k = none) (hzero : chargeCount s u p k = 0)
    (amt : Nat) (hok : (purchase u p k s).1 = PurchaseOutcome.ok amt) :
    chargeCount (purchaseMany n u p k s).2 u p k = 1 ∧
    (purchaseMany n u p k s).1 = List.replicate n (purchase u p k s).1 := by
  obtain ⟨m, rfl⟩ : ∃ m, n = m + 1 := ⟨n - 1, by omega⟩
  have hfix : purchase u p k (purchase u p k s).2
      = ((purchase u p k s).1, (purchase u p k s).2) := purchase_fixed u p k s
  have hrest := purchaseMany_of_fixed u p k (purchase u p k s).1 (purchase u p k s).2 hfix m
  constructor
  · show chargeCount (purchaseMany (m + 1) u p k s).2 u p k = 1
    simp only [purchaseMany, hrest]
    exact chargeCount_purchase_ok u p k s amt hfresh hzero hok
  · show (purchaseMany (m + 1) u p k s).1 = List.replicate (m + 1) (purchase u p k s).1
    simp [purchaseMany, hrest, List.replicate_succ]

/-- Witness for C8 at a concrete fresh ledger and three racing requests:
one charge committed, three identical responses. -/
theorem purchase_concurrent_once_witness :
    chargeCount (purchaseMany 3 1 "gold_pack" "key1" exLedger).2 1 "gold_pack" "key1" = 1 ∧
    (purchaseMany 3 1 "gold_pack" "key1" exLedger).1
        = List.replicate 3 (purchase 1 "gold_pack" "key1" exLedger).1 :=
  purchase_concurrent_once 3 1 "gold_pack" "key1" exLedger (by decide) rfl rfl 30 rfl

/-- Claim C2: after the upgrade, no single-column uniqueness on user_id or
product_id remains on shop_transactions; on the documented pre-migration
state only the composite (user_id, product_id, idempotency_key) constraint
survives, and any two purchase rows with different idempotency keys are
jointly admissible, so repeat purchases by one user succeed. -/
theorem shop_constraints_composite_only :
    (∀ uniques : List UniqueConstraint, ∀ u ∈ shopTransactionsUpgrade uniques,
      u.columns ≠ ["user_id"] ∧ u.columns ≠ ["product_id"]) ∧
    shopTransactionsUpgrade preShopUniques =
      [⟨"uq_shop_tx_idem", ["user_id", "product_id", "idempotency_key"]⟩] ∧
    (∀ r1 r2 : ShopRow, r1.idempotency_key ≠ r2.idempotency_key →
      rowsAdmissible (shopTransactionsUpgrade preShopUniques) [r1, r2]) := by
  refine ⟨?_, ?_, ?_⟩
  · intro uniques u hu
    rw [shopTransactionsUpgrade, List.mem_filter] at hu
    obtain ⟨hmem, hpred⟩ := hu
    have hkeep : ¬ u.name ∈ shopDropNames uniques := by
      intro hin
      rw [Bool.not_eq_eq_eq_not, Bool.not_true] at hpred
      have h2 : (shopDropNames uniques).contains u.name = true :=
        List.elem_eq_true_of_mem hin
      rw [h2] at hpred
      exact Bool.noConfusion hpred
    constructor
    · intro hcol
      exact hkeep (List.mem_map_of_mem _ (List.mem_filter.mpr ⟨hmem, by simp [hcol]⟩))
    · intro hcol
      exact hkeep (List.mem_map_of_mem _ (List.mem_filter.mpr ⟨hmem, by simp [hcol]⟩))
  · rfl
  · intro r1 r2 hk
    intro c hc a ha b hb hab hall
    have heq : shopTransactionsUpgrade preShopUniques =
        [⟨"uq_shop_tx_idem", ["user_id", "product_id", "idempotency_key"]⟩] := rfl
    rw [heq] at hc
    have hcols : c.columns = ["user_id", "product_id", "idempotency_key"] := by
      have hcc : c = ⟨"uq_shop_tx_idem", ["user_id", "product_id", "idempotency_key"]⟩ := by
        simpa using hc
      rw [hcc]
    have hkey := hall "idempotency_key" (by rw [hcols]; simp)
    simp only [colVal] at hkey
    norm_num at hkey
    have hmem2 : ∀ x ∈ ([r1, r2] : List ShopRow), x = r1 ∨ x = r2 := by
      intro x hx
      simpa using hx
    rcases hmem2 a ha with rfl | rfl <;> rcases hmem2 b hb with rfl | rfl
    · exact hab rfl
    · exact hk hkey
    · exact hk hkey.symm
    · exact hab rfl

/-- Witness for C2 at two concrete rows of one user buying the same product
under two idempotency keys: both rows are admissible after migration. -/
theorem shop_constraints_composite_only_witness :
    rowsAdmissible (shopTransactionsUpgrade preShopUniques)
      [⟨7, "gold_pack", "k1"⟩, ⟨7, "gold_pack", "k2"⟩] :=
  shop_constraints_composite_only.2.2 ⟨7, "gold_pack", "k1"⟩ ⟨7, "gold_pack", "k2"⟩ (by decide)

/-- Counterexample for C7: on a game_stats table holding one row with NULL
user_id, the migration does not abort and does not leave the row for the
operator: it completes, deleting the row and applying NOT NULL. -/
theorem gameStats_migration_no_abort_counterexample :
    gameStatsUpgrade ⟨[⟨none⟩], true⟩ = Except.ok ⟨[], false⟩ ∧
    (gameStatsUpgrade ⟨[⟨none⟩], true⟩).isOk = true := ⟨rfl, rfl⟩

/-- Claim C7 as amended: when the migration finds game_stats rows with NULL
user_id before SET NOT NULL, it deletes exactly those rows and then applies
the constraint; the migration always completes, and the constraint is never
applied against violating data. -/
theorem gameStats_migration_deletes_then_tightens (t : GameStatsTable) :
    ∃ u, gameStatsUpgrade t = Except.ok u ∧
      (t.user_id_nullable = true →
        u.user_id_nullable = false ∧
        u.rows = t.rows.filter (fun r => r.user_id.isSome) ∧
        ∀ r ∈ u.rows, r.user_id ≠ none) := by
  cases hnul : t.user_id_nullable with
  | false =>
    refine ⟨t, ?_, ?_⟩
    · simp [gameStatsUpgrade, hnul]
    · intro h
      exact Bool.noConfusion h
  | true =>
    refine ⟨{ rows := t.rows.filter (fun r => r.user_id.isSome), user_id_nullable := false },
      ?_, ?_⟩
    · simp [gameStatsUpgrade, hnul]
    · intro _
      refine ⟨rfl, rfl, ?_⟩
      intro r hr
      have := List.of_mem_filter hr
      simp only [Option.isSome_iff_exists] at this
      obtain ⟨v, hv⟩ := this
      simp [hv]

/-- Witness for C7 as amended, at a table with one NULL row and one valid
row and user_id still nullable. -/
theorem gameStats_migration_deletes_then_tightens_witness :
    ∃ u, gameStatsUpgrade ⟨[⟨none⟩, ⟨some 5⟩], true⟩ = Except.ok u ∧
      ((⟨[⟨none⟩, ⟨some 5⟩], true⟩ : GameStatsTable).user_id_nullable = true →
        u.user_id_nullable = false ∧
        u.rows = ([⟨none⟩, ⟨some 5⟩] : List GameStatsRow).filter (fun r => r.user_id.isSome) ∧
        ∀ r ∈ u.rows, r.user_id ≠ none) :=
  gameStats_migration_deletes_then_tightens ⟨[⟨none⟩, ⟨some 5⟩], true⟩

/-- Helper: one game-resolution event preserves the per-detail invariant
total = wins + losses. -/
lemma applyEvent_inv (d : GameType → Detail) (e : GameEvent)
    (h : ∀ g, (d g).total = (d g).wins + (d g).losses) (g : GameType) :
    (applyEvent d e g).total = (applyEvent d e g).wins + (applyEvent d e g).losses := by
  have he := h e.game
  have hgg := h g
  unfold applyEvent
  by_cases hg : g = e.game
  · subst hg
    cases hw : e.win <;> simp [hw] <;> omega
  · simp [hg]
    omega

/-- Helper: folding game-resolution events preserves the per-detail
invariant total = wins + losses. -/
lemma foldl_applyEvent_inv :
    ∀ (es : List GameEvent) (d : GameType → Detail),
      (∀ g, (d g).total = (d g).wins + (d g).losses) →
      ∀ g, ((es.foldl applyEvent d) g).total
        = ((es.foldl applyEvent d) g).wins + ((es.foldl applyEvent d) g).losses := by
  intro es
  induction es with
  | nil => intro d h g; exact h g
  | cons e es ih =>
    intro d h g
    simp only [List.foldl_cons]
    exact ih (applyEvent d e) (fun g2 => applyEvent_inv d e h g2) g

/-- Helper: every reachable detail state satisfies total = wins + losses. -/
lemma applyEvents_inv (es : List GameEvent) (g : GameType) :
    ((applyEvents es) g).total = ((applyEvents es) g).wins + ((applyEvents es) g).losses :=
  foldl_applyEvent_inv es (fun _ => zeroDetail) (fun _ => rfl) g

/-- Claim C3: after any sequence of game-resolution events and a
recomputation from the details, the aggregate satisfies total_wins equal to
the per-game wins summed, overall_max_win equal to the per-game max_win
maximum, total_games_played equal to the per-game totals summed, and every
detail record satisfies total = wins + losses. -/
theorem stats_aggregate_consistency (es : List GameEvent) :
    (recompute (applyEvents es)).total_wins
      = (applyEvents es GameType.crash).wins + (applyEvents es GameType.slot).wins
        + (applyEvents es GameType.gacha).wins + (applyEvents es GameType.rps).wins ∧
    (recompute (applyEvents es)).overall_max_win
      = Nat.max (applyEvents es GameType.crash).max_win
          (Nat.max (applyEvents es GameType.slot).max_win
            (Nat.max (applyEvents es GameType.gacha).max_win
              (applyEvents es GameType.rps).max_win)) ∧
    (recompute (applyEvents es)).total_games_played
      = (applyEvents es GameType.crash).total + (applyEvents es GameType.slot).total
        + (applyEvents es GameType.gacha).total + (applyEvents es GameType.rps).total ∧
    ∀ g, ((applyEvents es) g).total = ((applyEvents es) g).wins + ((applyEvents es) g).losses := by
  refine ⟨?_, ?_, ?_, applyEvents_inv es⟩
  · show sumWins (applyEvents es) = _
    simp [sumWins, gameTypes]
    omega
  · show maxWinOf (applyEvents es) = _
    simp [maxWinOf, gameTypes]
  · show sumTotals (applyEvents es) = _
    simp [sumTotals, gameTypes]
    omega

/-- Claim C4: the recomputed win_rate is round(total_wins divided by
max(1, total_games_played), 3), the denominator is positive so no division
by zero occurs, and a user with zero games played gets win_rate zero. -/
theorem stats_win_rate_rounding (es : List GameEvent) :
    (recompute (applyEvents es)).win_rate
      = roundTo3 ((sumWins (applyEvents es) : ℚ)
          / ((Nat.max 1 (sumTotals (applyEvents es)) : Nat) : ℚ)) ∧
    (0 : ℚ) < ((Nat.max 1 (sumTotals (applyEvents es)) : Nat) : ℚ) ∧
    (sumTotals (applyEvents es) = 0 → (recompute (applyEvents es)).win_rate = 0) := by
  refine ⟨rfl, ?_, ?_⟩
  · have h1 : 0 < Nat.max 1 (sumTotals (applyEvents es)) :=
      Nat.lt_of_lt_of_le Nat.zero_lt_one (Nat.le_max_left _ _)
    exact_mod_cast h1
  · intro h0
    have hinv := applyEvents_inv es
    have hw : sumWins (applyEvents es) = 0 := by
      have h1 := hinv GameType.crash
      have h2 := hinv GameType.slot
      have h3 := hinv GameType.gacha
      have h4 := hinv GameType.rps
      simp [sumTotals, gameTypes] at h0
      simp [sumWins, gameTypes]
      omega
    show winRate (sumWins (applyEvents es)) (sumTotals (applyEvents es)) = 0
    rw [hw, h0]
    norm_num [winRate, roundTo3]

/-- Witness for C4 at the empty event history: win_rate is zero. -/
theorem stats_win_rate_rounding_witness :
    (recompute (applyEvents [])).win_rate = 0 :=
  (stats_win_rate_rounding []).2.2 rfl

/-- Helper: every game type is a member of the known game type list. -/
lemma mem_gameTypes (g : GameType) : g ∈ gameTypes := by
  cases g <;> simp [gameTypes]

/-- Claim C5: the details view covers exactly the known game types in a
stable schema; a missing game type appears as the zero-valued record and a
stored one appears unchanged; in particular a user with only slot results
gets zero entries for crash, gacha and rps. -/
theorem getStats_details_stable (recs : List (GameType × Detail)) :
    (getStatsDetails recs).map Prod.fst = gameTypes ∧
    (∀ g : GameType, g ∈ (getStatsDetails recs).map Prod.fst) ∧
    (∀ g, lookupDetail recs g = none → (g, zeroDetail) ∈ getStatsDetails recs) ∧
    (∀ g dd, lookupDetail recs g = some dd → (g, dd) ∈ getStatsDetails recs) ∧
    getStatsDetails [(GameType.slot, ⟨3, 2, 50, 5⟩)] =
      [(GameType.crash, zeroDetail), (GameType.slot, ⟨3, 2, 50, 5⟩),
       (GameType.gacha, zeroDetail), (GameType.rps, zeroDetail)] := by
  have hmap : (getStatsDetails recs).map Prod.fst = gameTypes := rfl
  have hmem : ∀ g : GameType, (g, (lookupDetail recs g).getD zeroDetail) ∈ getStatsDetails recs := by
    intro g
    unfold getStatsDetails
    exact List.mem_map_of_mem _ (mem_gameTypes g)
  refine ⟨hmap, ?_, ?_, ?_, ?_⟩
  · intro g
    rw [hmap]
    exact mem_gameTypes g
  · intro g hnone
    have h2 := hmem g
    rw [hnone] at h2
    exact h2
  · intro g dd hsome
    have h2 := hmem g
    rw [hsome] at h2
    exact h2
  · rfl

/-- Witness for C5: a user with only slot results still gets the zero-valued
crash entry. -/
theorem getStats_details_stable_witness :
    (GameType.crash, zeroDetail) ∈ getStatsDetails [(GameType.slot, ⟨3, 2, 50, 5⟩)] :=
  (getStats_details_stable [(GameType.slot, ⟨3, 2, 50, 5⟩)]).2.2.1 GameType.crash rfl

/-- Claim C6: every stats read answers successfully with an aggregate whose
total_wins agrees with the sum of detail wins, and a warning is logged
exactly when the stored aggregate drifted from the details. -/
theorem readStats_selfheal (st : StatsState) :
    (readStats st).success = true ∧
    (readStats st).aggregate.total_wins = sumWins st.details ∧
    ((readStats st).warnings ≠ [] ↔ sumWins st.details ≠ st.stored.total_wins) := by
  by_cases h : sumWins st.details = st.stored.total_wins
  · refine ⟨?_, ?_, ?_⟩ <;> simp [readStats, recompute, h]
  · refine ⟨?_, ?_, ?_⟩ <;> simp [readStats, recompute, h]

/-- Claim C9: the body sent by buyProduct holds only product_id and the
coerced idempotency key: none of user_id, amount, quantity or metadata ever
appears among the serialized keys, an empty idempotency key is coerced to
absent, and payloads differing only in those other fields produce the same
body. -/
theorem buyProduct_body_minimal (p : ShopBuyPayload) :
    (buyProductBody p).product_id = p.product_id ∧
    (∀ key ∈ bodyKeys (buyProductBody p), key = "product_id" ∨ key = "idempotency_key") ∧
    "user_id" ∉ bodyKeys (buyProductBody p) ∧
    "amount" ∉ bodyKeys (buyProductBody p) ∧
    "quantity" ∉ bodyKeys (buyProductBody p) ∧
    "metadata" ∉ bodyKeys (buyProductBody p) ∧
    (p.idempotency_key = some "" → (buyProductBody p).idempotency_key = none) ∧
    (∀ q : ShopBuyPayload, q.product_id = p.product_id →
      q.idempotency_key = p.idempotency_key → buyProductBody q = buyProductBody p) := by
  have hkeys : bodyKeys (buyProductBody p) = ["product_id"] ∨
      bodyKeys (buyProductBody p) = ["product_id", "idempotency_key"] := by
    unfold bodyKeys
    cases (buyProductBody p).idempotency_key <;> simp
  refine ⟨rfl, ?_, ?_, ?_, ?_, ?_, ?_, ?_⟩
  · intro key hkey
    rcases hkeys with h | h <;> rw [h] at hkey <;> simp at hkey <;> tauto
  · rcases hkeys with h | h <;> rw [h] <;> simp
  · rcases hkeys with h | h <;> rw [h] <;> simp
  · rcases hkeys with h | h <;> rw [h] <;> simp
  · rcases hkeys with h | h <;> rw [h] <;> simp
  · intro he
    simp [buyProductBody, coerceKey, he]
  · intro q h1 h2
    simp [buyProductBody, h1, h2]

/-- Witness for C9: the example payload with an empty idempotency key sends
no idempotency_key field. -/
theorem buyProduct_body_minimal_witness :
    (buyProductBody exPayload).idempotency_key = none :=
  (buyProduct_body_minimal exPayload).2.2.2.2.2.2.1 rfl

/-- Helper: a successful sequential fallback posts every payload, so the
collected result list has one entry per payload. -/
lemma postSeq_length (env : ApiEnv) :
    ∀ (ps : List ActionPayload) (rs : List String),
      postSeq env ps = Except.ok rs → rs.length = ps.length := by
  intro ps
  induction ps with
  | nil =>
    intro rs h
    simp only [postSeq] at h
    cases h
    rfl
  | cons p ps ih =>
    intro rs h
    simp only [postSeq] at h
    cases hs : env.single p with
    | error e => rw [hs] at h; exact Except.noConfusion h
    | ok r =>
      rw [hs] at h
      cases hrest : postSeq env ps with
      | error e => rw [hrest] at h; exact Except.noConfusion h
      | ok rs2 =>
        rw [hrest] at h
        cases h
        simp [ih rs2 hrest]

/-- Claim C10: when the bulk post fails, a successful sequential fallback
yields the logged acknowledgement counting every payload, and when the
fallback fails as well, the original bulk error is thrown, not the
fallback error. -/
theorem postActionsBatch_fallback (env : ApiEnv) (ps : List ActionPayload) (err : String)
    (hbulk : env.bulk ps = Except.error err) :
    (∀ rs, postSeq env ps = Except.ok rs →
      postActionsBatch env ps = Except.ok (BatchResult.logged ps.length)) ∧
    (∀ e2, postSeq env ps = Except.error e2 →
      postActionsBatch env ps = Except.error err) := by
  constructor
  · intro rs hseq
    simp [postActionsBatch, hbulk, hseq, postSeq_length env ps rs hseq]
  · intro e2 hseq
    simp [postActionsBatch, hbulk, hseq]

/-- Witness for C10 with the bulk endpoint down and the single endpoint up:
the fallback acknowledges exactly the one payload. -/
theorem postActionsBatch_fallback_witness :
    postActionsBatch exApiEnv exActions = Except.ok (BatchResult.logged exActions.length) :=
  (postActionsBatch_fallback exApiEnv exActions "bulk down" rfl).1 ["ok"] rfl
